import Mathlib

/-!
# Verification of the Disease Prediction & Risk Classification Engine

Shallow embedding of the prediction engine of the
Disease-Prediction-Using-ML-DL-and-QML repository.

The repository contains two application variants.  The canonical one
(risk-tiered, hashed credentials, exercised by `test_app.py`, which imports
`_classify_risk`, `FEATURE_LISTS`, `LABEL_TO_NUMERIC` and a `risk_label`
column from it) is the one this development verifies; its `app.py` file is
not present in the source tree, only its test suite is, so the parts that
exist only there (`_classify_risk`, the raw-score persistence and the
dispatcher error taxonomy) are modelled from the specification and marked
as such.  The mechanics shared by both variants (the feature schemas, the
label-to-numeric maps, the validation/encoding loop, the age extraction and
the keyed upsert of patient records) are translated directly from the
`predict` route of the `app.py` variant that is present (lines 190-320).

Numbers are modelled as rationals: the Python code works with `float`, but
every value the claims touch (form decimals, 0/1 decision scores, the 0.5
and 0.8 risk thresholds) is exactly representable, so `ℚ` is a faithful
model of the arithmetic the engine performs on them.
-/

deriving instance DecidableEq for Except

namespace DiseasePrediction

/-- The four supported disease tags (keys of `feature_lists` in `app.py`). -/
inductive Disease
  | heartAttack
  | breastCancer
  | diabetes
  | lungCancer
deriving DecidableEq

/-- The seven classifier backend kinds per disease (keys of `models[d]`
besides `scaler`): KNN, DT, RF, LR, SVM, NB and the continuous DL kind. -/
inductive ModelKind
  | KNN
  | DT
  | RF
  | LR
  | SVM
  | NB
  | DL
deriving DecidableEq

/-- Value of a digit character, as in positional base-10 reading. -/
def digitVal (c : Char) : Nat := c.toNat - 48

/-- Base-10 value of a digit string (empty list reads as 0, mirroring the
integer part of Python `float(".5")`). -/
def natVal (cs : List Char) : Nat :=
  cs.foldl (fun acc c => acc * 10 + digitVal c) 0

/-- Parse an unsigned decimal literal `digits [. digits]` the way Python
`float()` does on plain decimal notation, returned as the pair
(value scaled by `10 ^ fractionLength`, `10 ^ fractionLength`): at least
one digit must be present overall, a trailing or leading dot is allowed
(`"5."`, `".5"`).  Exponent/whitespace/inf forms are not modelled and read
as invalid. -/
def parseUnsigned (cs : List Char) : Option (ℕ × ℕ) :=
  let intPart := cs.takeWhile (fun c => c.isDigit)
  let rest := cs.dropWhile (fun c => c.isDigit)
  match rest with
  | [] =>
    if intPart.isEmpty then none
    else some (natVal intPart, 1)
  | '.' :: frac =>
    if frac.all (fun c => c.isDigit) && !(intPart.isEmpty && frac.isEmpty) then
      some (natVal intPart * 10 ^ frac.length + natVal frac, 10 ^ frac.length)
    else none
  | _ => none

/-- Python `float(value)` on a raw form string: optional sign, then an
unsigned decimal literal, read as the exact rational it denotes. -/
def parseDecimal (s : String) : Option ℚ :=
  match s.toList with
  | '-' :: rest => (parseUnsigned rest).map (fun p => mkRat (-(p.1 : ℤ)) p.2)
  | '+' :: rest => (parseUnsigned rest).map (fun p => mkRat (p.1 : ℤ) p.2)
  | cs => (parseUnsigned cs).map (fun p => mkRat (p.1 : ℤ) p.2)

/-- Python `int(value)` on a float: truncation toward zero. -/
def truncRat (q : ℚ) : ℤ :=
  if 0 ≤ q then q.floor else q.ceil

/-- Python `str.lower` restricted to ASCII, which covers every feature
name in the schemas. -/
def lowerChar (c : Char) : Char :=
  if 65 ≤ c.toNat ∧ c.toNat ≤ 90 then Char.ofNat (c.toNat + 32) else c

/-- ASCII lowercasing of a whole string (`feature.lower()` in the code). -/
def lowerStr (s : String) : String :=
  String.mk (s.toList.map lowerChar)

/-- `feature_lists` from `app.py` (lines 199-213): the ordered feature-name
schema of each disease. -/
def featureLists : Disease → List String
  | .heartAttack =>
    ["age", "sex", "cp", "trestbps", "chol", "fbs", "restecg", "thalach",
     "exang", "oldpeak", "slope", "ca", "thal"]
  | .breastCancer =>
    ["radius_mean", "texture_mean", "perimeter_mean", "area_mean",
     "smoothness_mean", "compactness_mean", "concavity_mean",
     "concave_points_mean", "symmetry_mean", "fractal_dimension_mean",
     "radius_se", "texture_se", "perimeter_se", "area_se",
     "smoothness_se", "compactness_se", "concavity_se",
     "concave_points_se", "symmetry_se", "fractal_dimension_se",
     "radius_worst", "texture_worst", "perimeter_worst", "area_worst",
     "smoothness_worst", "compactness_worst", "concavity_worst",
     "concave_points_worst", "symmetry_worst", "fractal_dimension_worst"]
  | .diabetes =>
    ["Pregnancies", "Glucose", "BloodPressure", "SkinThickness", "Insulin",
     "BMI", "DiabetesPedigreeFunction", "Age"]
  | .lungCancer =>
    ["GENDER", "AGE", "SMOKING", "YELLOW_FINGERS", "ANXIETY",
     "PEER_PRESSURE", "CHRONIC_DISEASE", "FATIGUE", "ALLERGY",
     "WHEEZING", "ALCOHOL_CONSUMING", "COUGHING", "SHORTNESS_OF_BREATH",
     "SWALLOWING_DIFFICULTY", "CHEST_PAIN"]

/-- `label_to_numeric` from `app.py` (lines 216-247): the categorical
label-to-integer domain map of a feature, `none` when the feature is
continuous.  Every disease is a key of the Python dict, so the code's
`disease in label_to_numeric and feature in label_to_numeric[disease]`
test reduces to this lookup being `some`. -/
def labelToNumeric : Disease → String → Option (List (String × Nat))
  | .heartAttack, "sex" => some [("female", 0), ("male", 1)]
  | .heartAttack, "cp" =>
    some [("typical_angina", 0), ("atypical_angina", 1),
          ("non_anginal_pain", 2), ("asymptomatic", 3)]
  | .heartAttack, "fbs" => some [("false", 0), ("true", 1)]
  | .heartAttack, "restecg" =>
    some [("normal", 0), ("st_t_abnormality", 1), ("lv_hypertrophy", 2)]
  | .heartAttack, "exang" => some [("no", 0), ("yes", 1)]
  | .heartAttack, "slope" =>
    some [("upsloping", 0), ("flat", 1), ("downsloping", 2)]
  | .heartAttack, "ca" => some [("0", 0), ("1", 1), ("2", 2), ("3", 3)]
  | .heartAttack, "thal" =>
    some [("normal", 0), ("fixed_defect", 1), ("reversible_defect", 2),
          ("other", 3)]
  | .breastCancer, "diagnosis" => some [("B", 0), ("M", 1)]
  | .lungCancer, "GENDER" => some [("F", 0), ("M", 1)]
  | .lungCancer, "SMOKING" => some [("1", 0), ("2", 1)]
  | .lungCancer, "YELLOW_FINGERS" => some [("1", 0), ("2", 1)]
  | .lungCancer, "ANXIETY" => some [("1", 0), ("2", 1)]
  | .lungCancer, "PEER_PRESSURE" => some [("1", 0), ("2", 1)]
  | .lungCancer, "CHRONIC_DISEASE" => some [("1", 0), ("2", 1)]
  | .lungCancer, "FATIGUE" => some [("1", 0), ("2", 1)]
  | .lungCancer, "ALLERGY" => some [("1", 0), ("2", 1)]
  | .lungCancer, "WHEEZING" => some [("1", 0), ("2", 1)]
  | .lungCancer, "ALCOHOL_CONSUMING" => some [("1", 0), ("2", 1)]
  | .lungCancer, "COUGHING" => some [("1", 0), ("2", 1)]
  | .lungCancer, "SHORTNESS_OF_BREATH" => some [("1", 0), ("2", 1)]
  | .lungCancer, "SWALLOWING_DIFFICULTY" => some [("1", 0), ("2", 1)]
  | .lungCancer, "CHEST_PAIN" => some [("1", 0), ("2", 1)]
  | _, _ => none

/-- Error taxonomy of a prediction request (§7 of the specification; in the
present `app.py` variant these are the distinct early-return error
messages of the `predict` route). -/
inductive PredictError
  | missingFeature (feature : String)
  | invalidValue (feature : String)
  | scalingError
  | unknownModel (key : String)
  | inferenceError (d : Disease) (key : String)
deriving DecidableEq

/-- First-match association lookup, as Python `dict.get` over the literal
label maps (whose keys are distinct). -/
def lookupLabel : List (String × Nat) → String → Option Nat
  | [], _ => none
  | (k, n) :: ps, v => if k = v then some n else lookupLabel ps v

/-- Encoding of one raw form value for one feature (`predict` route,
lines 257-266): categorical features go through the label map, anything
else is parsed as a float; an unknown label or unparsable number is an
`InvalidValueError` naming the feature. -/
def encodeFeature (d : Disease) (f : String) (raw : String) :
    Except PredictError ℚ :=
  match labelToNumeric d f with
  | some pairs =>
    match lookupLabel pairs raw with
    | some n => .ok (n : ℚ)
    | none => .error (.invalidValue f)
  | none =>
    match parseDecimal raw with
    | some q => .ok q
    | none => .error (.invalidValue f)

/-- The validation/encoding loop of the `predict` route (lines 250-269):
walk the schema in order; a missing or empty form value is a
`MissingFeatureError` naming the feature (Python `if not value`); encode
each value and append; whenever `feature.lower() in ['age', 'AGE']` the
running `age` is set to `int(value)` (a later age-like feature would
overwrite an earlier one, hence the right-biased combination). -/
def encodeLoop (d : Disease) (form : String → Option String) :
    List String → Except PredictError (List ℚ × Option ℤ)
  | [] => .ok ([], none)
  | f :: fs =>
    match form f with
    | none => .error (.missingFeature f)
    | some raw =>
      if raw = "" then .error (.missingFeature f)
      else
        match encodeFeature d f raw with
        | .error e => .error e
        | .ok v =>
          match encodeLoop d form fs with
          | .error e => .error e
          | .ok (vs, a) =>
            .ok (v :: vs,
              match a with
              | some x => some x
              | none =>
                if lowerStr f = "age" ∨ lowerStr f = "AGE" then
                  some (truncRat v)
                else none)

/-- One persisted patient row (the `PatientData` model of `app.py`, plus
the `risk_label` column that the canonical variant adds — `test_app.py`
constructs `PatientData(..., result=0.75, risk_label="Medium Risk")`). -/
structure PatientRecord where
  doctorId : Nat
  name : String
  disease : Disease
  age : Option ℤ
  features : List ℚ
  result : ℚ
  riskLabel : String
deriving DecidableEq

/-- The identity key of a record: (clinician, patient name, disease, age). -/
def keyOf (r : PatientRecord) : Nat × String × Disease × Option ℤ :=
  (r.doctorId, r.name, r.disease, r.age)

/-- Number of records in the store carrying a given identity key. -/
def countKey (db : List PatientRecord)
    (k : Nat × String × Disease × Option ℤ) : Nat :=
  db.countP (fun r => decide (keyOf r = k))

/-- The store-or-update block of the `predict` route (lines 295-303):
look the full identity key up; if a record exists, overwrite its
vector/score/tier in place; otherwise append a fresh record (`first()`
returns the oldest match, and a new row is created after the existing
ones, mirroring autoincrement ids / creation order). -/
def upsert (db : List PatientRecord) (doctorId : Nat) (name : String)
    (d : Disease) (age : Option ℤ) (features : List ℚ) (result : ℚ)
    (risk : String) : List PatientRecord :=
  match db with
  | [] => [⟨doctorId, name, d, age, features, result, risk⟩]
  | r :: rs =>
    if keyOf r = (doctorId, name, d, age) then
      { r with features := features, result := result, riskLabel := risk } :: rs
    else
      r :: upsert rs doctorId name d age features result risk

/-- Modelled from the spec: `_classify_risk` of the canonical risk-tiered
`app.py` is not in the source tree (only its tests, `test_app.py`, are);
§4.5 states the step function `score >= 0.8 → High`,
`0.5 <= score < 0.8 → Medium`, `score < 0.5 → Low`, with the labels
"High Risk"/"Medium Risk"/"Low Risk" used by `test_risk_classification`. -/
def classifyRisk (score : ℚ) : String :=
  if mkRat 8 10 ≤ score then "High Risk"
  else if mkRat 5 10 ≤ score then "Medium Risk"
  else "Low Risk"

/-- The seven backend keys as form strings (`model_type` values). -/
def parseModelKey : String → Option ModelKind
  | "KNN" => some .KNN
  | "DT" => some .DT
  | "RF" => some .RF
  | "LR" => some .LR
  | "SVM" => some .SVM
  | "NB" => some .NB
  | "DL" => some .DL
  | _ => none

/-- A model registry: per disease and backend kind, the opaque fitted
classifier's `predict` capability on a scaled vector; `none` models the
backend raising an exception during inference. -/
def Registry : Type :=
  Disease → ModelKind → List ℚ → Option ℚ

/-- The per-disease pretrained scaler adapters (`scaler.transform`);
`none` models the transform raising (shape mismatch etc.). -/
def Scalers : Type :=
  Disease → List ℚ → Option (List ℚ)

/-- One prediction request end to end.  The validation/encoding stage and
the keyed persistence are translated from the `predict` route of the
`app.py` variant in the tree (lines 250-269 and 295-303: the persisted
`features` are the unscaled encoded vector, persistence happens only when
a patient name was supplied).  The dispatch and persistence of the score
are modelled from the spec: in the canonical risk-tiered `app.py` (absent
from the tree, only `test_app.py` remains) an unknown backend key fails
with `UnknownModelError`, a backend exception is converted to
`InferenceError(disease, backendKey, cause)`, and the persisted score is
the raw value returned by the backend for all seven kinds, with the
derived `risk_label` stored next to it.  On any error the store is
returned unchanged (a `Rejected` transition is terminal: nothing is
written). -/
def predictTop (reg : Registry) (scalers : Scalers)
    (db : List PatientRecord) (doctorId : Nat) (modelKey : String)
    (name : String) (d : Disease) (form : String → Option String) :
    Except PredictError (ℚ × String) × List PatientRecord :=
  match encodeLoop d form (featureLists d) with
  | .error e => (.error e, db)
  | .ok (features, age) =>
    match scalers d features with
    | none => (.error .scalingError, db)
    | some scaled =>
      match parseModelKey modelKey with
      | none => (.error (.unknownModel modelKey), db)
      | some kind =>
        match reg d kind scaled with
        | none => (.error (.inferenceError d modelKey), db)
        | some score =>
          let risk := classifyRisk score
          let db' :=
            if name = "" then db
            else upsert db doctorId name d age features score risk
          (.ok (score, risk), db')

/-! ## Store lemmas -/

theorem countKey_nil (k : Nat × String × Disease × Option ℤ) :
    countKey [] k = 0 := rfl

theorem countKey_cons (r : PatientRecord) (rs : List PatientRecord)
    (k : Nat × String × Disease × Option ℤ) :
    countKey (r :: rs) k = countKey rs k + (if keyOf r = k then 1 else 0) := by
  simp [countKey, List.countP_cons]

theorem keyOf_update (r : PatientRecord) (f : List ℚ) (s : ℚ) (t : String) :
    keyOf { r with features := f, result := s, riskLabel := t } = keyOf r := rfl

theorem one_le_countKey_of_mem {db : List PatientRecord} {r : PatientRecord}
    {k : Nat × String × Disease × Option ℤ}
    (hr : r ∈ db) (hk : keyOf r = k) : 1 ≤ countKey db k := by
  have : 0 < countKey db k := by
    rw [countKey, List.countP_pos_iff]
    exact ⟨r, hr, by simp [hk]⟩
  omega

theorem countKey_upsert_self (db : List PatientRecord) (doc : Nat) (n : String)
    (d : Disease) (a : Option ℤ) (f : List ℚ) (s : ℚ) (t : String) :
    countKey (upsert db doc n d a f s t) (doc, n, d, a) =
      max 1 (countKey db (doc, n, d, a)) := by
  induction db with
  | nil => simp [upsert, countKey_cons, countKey_nil, keyOf]
  | cons r rs ih =>
    by_cases h : keyOf r = (doc, n, d, a)
    · simp [upsert, h, countKey_cons, keyOf_update]
    · simp [upsert, h, countKey_cons, ih]

theorem countKey_upsert_other (db : List PatientRecord) (doc : Nat) (n : String)
    (d : Disease) (a : Option ℤ) (f : List ℚ) (s : ℚ) (t : String)
    (k : Nat × String × Disease × Option ℤ) (hk : k ≠ (doc, n, d, a)) :
    countKey (upsert db doc n d a f s t) k = countKey db k := by
  induction db with
  | nil =>
    simp [upsert, countKey_cons, countKey_nil, keyOf, Ne.symm hk]
  | cons r rs ih =>
    by_cases h : keyOf r = (doc, n, d, a)
    · simp only [upsert, if_pos h, countKey_cons, keyOf_update]
    · simp only [upsert, if_neg h, countKey_cons, ih]

theorem length_upsert_notfound (db : List PatientRecord) (doc : Nat)
    (n : String) (d : Disease) (a : Option ℤ) (f : List ℚ) (s : ℚ) (t : String)
    (h : countKey db (doc, n, d, a) = 0) :
    (upsert db doc n d a f s t).length = db.length + 1 := by
  induction db with
  | nil => simp [upsert]
  | cons r rs ih =>
    rw [countKey_cons] at h
    by_cases hr : keyOf r = (doc, n, d, a)
    · simp [hr] at h
    · simp only [upsert, if_neg hr, List.length_cons]
      rw [ih (by omega)]

theorem length_upsert_found (db : List PatientRecord) (doc : Nat)
    (n : String) (d : Disease) (a : Option ℤ) (f : List ℚ) (s : ℚ) (t : String)
    (h : countKey db (doc, n, d, a) ≠ 0) :
    (upsert db doc n d a f s t).length = db.length := by
  induction db with
  | nil => simp [countKey_nil] at h
  | cons r rs ih =>
    rw [countKey_cons] at h
    by_cases hr : keyOf r = (doc, n, d, a)
    · simp only [upsert, if_pos hr, List.length_cons]
    · simp only [upsert, if_neg hr, List.length_cons]
      rw [ih (by simpa [hr] using h)]

theorem upsert_mem (db : List PatientRecord) (doc : Nat) (n : String)
    (d : Disease) (a : Option ℤ) (f : List ℚ) (s : ℚ) (t : String) :
    ∃ r ∈ upsert db doc n d a f s t,
      keyOf r = (doc, n, d, a) ∧ r.features = f ∧ r.result = s ∧
        r.riskLabel = t := by
  induction db with
  | nil => exact ⟨⟨doc, n, d, a, f, s, t⟩, by simp [upsert], rfl, rfl, rfl, rfl⟩
  | cons r rs ih =>
    by_cases h : keyOf r = (doc, n, d, a)
    · refine ⟨{ r with features := f, result := s, riskLabel := t }, ?_, ?_, rfl, rfl, rfl⟩
      · simp [upsert, if_pos h]
      · rw [keyOf_update, h]
    · obtain ⟨x, hx, hk, hf, hs, ht⟩ := ih
      exact ⟨x, by simp [upsert, if_neg h, hx], hk, hf, hs, ht⟩

theorem upsert_all_key (db : List PatientRecord) (doc : Nat) (n : String)
    (d : Disease) (a : Option ℤ) (f : List ℚ) (s : ℚ) (t : String)
    (hdb : countKey db (doc, n, d, a) ≤ 1) :
    ∀ r ∈ upsert db doc n d a f s t, keyOf r = (doc, n, d, a) →
      r.features = f ∧ r.result = s ∧ r.riskLabel = t := by
  induction db with
  | nil =>
    intro r hr _
    simp only [upsert, List.mem_singleton] at hr
    subst hr
    exact ⟨rfl, rfl, rfl⟩
  | cons x xs ih =>
    rw [countKey_cons] at hdb
    by_cases h : keyOf x = (doc, n, d, a)
    · intro r hr hk
      simp only [upsert, if_pos h, List.mem_cons] at hr
      rcases hr with hr | hr
      · subst hr
        exact ⟨rfl, rfl, rfl⟩
      · exact absurd (one_le_countKey_of_mem hr hk) (by simp [h] at hdb; omega)
    · intro r hr hk
      simp only [upsert, if_neg h, List.mem_cons] at hr
      rcases hr with hr | hr
      · subst hr
        exact absurd hk h
      · exact ih (by omega) r hr hk

/-! ## Encoding-loop lemmas -/

/-- A raw value for feature `f` of disease `d` that passes validation:
present, non-empty, and encodable. -/
def ValidAt (d : Disease) (form : String → Option String) (f : String) :
    Prop :=
  ∃ raw v, form f = some raw ∧ raw ≠ "" ∧ encodeFeature d f raw = .ok v

theorem encodeLoop_total (d : Disease) (form : String → Option String) :
    ∀ l : List String, (∀ f ∈ l, ValidAt d form f) →
      ∃ vs a, encodeLoop d form l = .ok (vs, a) ∧ vs.length = l.length ∧
        ∀ (i : Nat) (f : String), l[i]? = some f →
          ∃ raw v, form f = some raw ∧ raw ≠ "" ∧
            encodeFeature d f raw = .ok v ∧ vs[i]? = some v := by
  intro l
  induction l with
  | nil =>
    intro _
    exact ⟨[], none, rfl, rfl, by intro i f hif; simp at hif⟩
  | cons f fs ih =>
    intro hv
    obtain ⟨raw, v, hraw, hne, henc⟩ := hv f (List.mem_cons_self f fs)
    obtain ⟨vs, a, hok, hlen, hpt⟩ :=
      ih (fun g hg => hv g (List.mem_cons_of_mem f hg))
    have hpoint : ∀ (i : Nat) (g : String), (f :: fs)[i]? = some g →
        ∃ raw' v', form g = some raw' ∧ raw' ≠ "" ∧
          encodeFeature d g raw' = .ok v' ∧ (v :: vs)[i]? = some v' := by
      intro i g hig
      match i with
      | 0 =>
        simp only [List.getElem?_cons_zero, Option.some.injEq] at hig
        subst hig
        exact ⟨raw, v, hraw, hne, henc, by simp⟩
      | i + 1 =>
        simp only [List.getElem?_cons_succ] at hig
        obtain ⟨raw', v', h1, h2, h3, h4⟩ := hpt i g hig
        exact ⟨raw', v', h1, h2, h3, by simpa using h4⟩
    rcases a with _ | x
    · refine ⟨v :: vs,
        (if lowerStr f = "age" ∨ lowerStr f = "AGE" then some (truncRat v)
         else none), ?_, by simp [hlen], hpoint⟩
      simp only [encodeLoop, hraw, if_neg hne, henc, hok]
    · refine ⟨v :: vs, some x, ?_, by simp [hlen], hpoint⟩
      simp only [encodeLoop, hraw, if_neg hne, henc, hok]

theorem encodeLoop_missing (d : Disease) (form : String → Option String)
    (f : String) :
    ∀ l : List String, f ∈ l →
      (form f = none ∨ form f = some "") →
      (∀ g ∈ l, g ≠ f → ValidAt d form g) →
      encodeLoop d form l = .error (.missingFeature f) := by
  intro l
  induction l with
  | nil => intro h; simp at h
  | cons g gs ih =>
    intro hmem hmiss hothers
    by_cases hgf : g = f
    · subst hgf
      rcases hmiss with hm | hm
      · simp only [encodeLoop, hm]
      · simp [encodeLoop, hm]
    · obtain ⟨raw, v, hraw, hne, henc⟩ :=
        hothers g (List.mem_cons_self g gs) hgf
      have hfs : f ∈ gs := by
        rcases List.mem_cons.mp hmem with h | h
        · exact absurd h.symm hgf
        · exact h
      have hrec := ih hfs hmiss
        (fun x hx hxf => hothers x (List.mem_cons_of_mem g hx) hxf)
      simp only [encodeLoop, hraw, if_neg hne, henc, hrec]

theorem encodeLoop_age_none (d : Disease) (form : String → Option String) :
    ∀ (l : List String) (vs : List ℚ) (a : Option ℤ),
      (∀ f ∈ l, ¬(lowerStr f = "age" ∨ lowerStr f = "AGE")) →
      encodeLoop d form l = .ok (vs, a) → a = none := by
  intro l
  induction l with
  | nil =>
    intro vs a _ h
    simp only [encodeLoop, Except.ok.injEq, Prod.mk.injEq] at h
    exact h.2.symm
  | cons f fs ih =>
    intro vs a hage h
    simp only [encodeLoop] at h
    split at h
    · exact absurd h (by simp)
    · split at h
      · exact absurd h (by simp)
      · split at h
        · exact absurd h (by simp)
        · rename_i v henc
          split at h
          · exact absurd h (by simp)
          · rename_i p vs' a' hrec
            simp only [Except.ok.injEq, Prod.mk.injEq] at h
            have ha' : a' = none :=
              ih vs' a' (fun g hg => hage g (List.mem_cons_of_mem f hg)) hrec
            subst ha'
            rw [← h.2, if_neg (hage f (List.mem_cons_self f fs))]

theorem encodeLoop_age_head (d : Disease) (form : String → Option String)
    (f : String) (fs : List String) (vs : List ℚ) (a : Option ℤ)
    (raw : String) (v : ℚ)
    (hage : lowerStr f = "age" ∨ lowerStr f = "AGE")
    (hrest : ∀ g ∈ fs, ¬(lowerStr g = "age" ∨ lowerStr g = "AGE"))
    (hraw : form f = some raw)
    (henc : encodeFeature d f raw = .ok v)
    (h : encodeLoop d form (f :: fs) = .ok (vs, a)) :
    a = some (truncRat v) := by
  simp only [encodeLoop, hraw] at h
  split at h
  · exact absurd h (by simp)
  · split at h
    · exact absurd h (by simp)
    · rename_i v' heq2
      rw [henc] at heq2
      obtain rfl : v = v' := Except.ok.inj heq2
      split at h
      · exact absurd h (by simp)
      · rename_i p vs' a' hrec
        have ha' : a' = none := encodeLoop_age_none d form fs vs' a' hrest hrec
        subst ha'
        simp only [Except.ok.injEq, Prod.mk.injEq] at h
        rw [← h.2]

theorem encodeLoop_age_unique (d : Disease) (form : String → Option String)
    (f : String) (raw : String) (v : ℚ)
    (hage : lowerStr f = "age" ∨ lowerStr f = "AGE")
    (hraw : form f = some raw)
    (henc : encodeFeature d f raw = .ok v) :
    ∀ (l : List String) (vs : List ℚ) (a : Option ℤ),
      f ∈ l →
      (∀ g ∈ l, g ≠ f → ¬(lowerStr g = "age" ∨ lowerStr g = "AGE")) →
      encodeLoop d form l = .ok (vs, a) → a = some (truncRat v) := by
  intro l
  induction l with
  | nil =>
    intro vs a hmem
    exact absurd hmem (by simp)
  | cons g gs ih =>
    intro vs a hmem hothers h
    by_cases hfgs : f ∈ gs
    · simp only [encodeLoop] at h
      split at h
      · exact absurd h (by simp)
      · split at h
        · exact absurd h (by simp)
        · split at h
          · exact absurd h (by simp)
          · rename_i v' henc'
            split at h
            · exact absurd h (by simp)
            · rename_i p vs' a' hrec
              have ha' : a' = some (truncRat v) :=
                ih vs' a' hfgs
                  (fun x hx hxf => hothers x (List.mem_cons_of_mem g hx) hxf)
                  hrec
              subst ha'
              simp only [Except.ok.injEq, Prod.mk.injEq] at h
              exact h.2.symm
    · have hgf : g = f := by
        rcases List.mem_cons.mp hmem with h' | h'
        · exact h'.symm
        · exact absurd h' hfgs
      subst hgf
      have hrest : ∀ x ∈ gs, ¬(lowerStr x = "age" ∨ lowerStr x = "AGE") := by
        intro x hx
        by_cases hxf : x = g
        · subst hxf
          exact absurd hx hfgs
        · exact hothers x (List.mem_cons_of_mem g hx) hxf
      exact encodeLoop_age_head d form g gs vs a raw v hage hrest hraw henc h

/-! ## Pipeline inversion lemmas -/

theorem predictTop_ok_inv {reg : Registry} {scalers : Scalers}
    {db : List PatientRecord} {doc : Nat} {key name : String} {d : Disease}
    {form : String → Option String} {score : ℚ} {risk : String}
    {db' : List PatientRecord}
    (h : predictTop reg scalers db doc key name d form =
      (.ok (score, risk), db')) :
    ∃ feats age scaled kind,
      encodeLoop d form (featureLists d) = .ok (feats, age) ∧
      scalers d feats = some scaled ∧
      parseModelKey key = some kind ∧
      reg d kind scaled = some score ∧
      risk = classifyRisk score ∧
      db' = (if name = "" then db
             else upsert db doc name d age feats score (classifyRisk score)) := by
  unfold predictTop at h
  split at h
  · exact absurd h (by simp)
  · rename_i p feats age henc
    split at h
    · exact absurd h (by simp)
    · rename_i scaled hscale
      split at h
      · exact absurd h (by simp)
      · rename_i kind hkey
        split at h
        · exact absurd h (by simp)
        · rename_i s0 hreg
          simp only [Prod.mk.injEq, Except.ok.injEq] at h
          obtain ⟨⟨hs, hr⟩, hdb⟩ := h
          subst hs
          exact ⟨feats, age, scaled, kind, henc, hscale, hkey, hreg,
            hr.symm, hdb.symm⟩

theorem predictTop_encode_error {reg : Registry} {scalers : Scalers}
    {db : List PatientRecord} {doc : Nat} {key name : String} {d : Disease}
    {form : String → Option String} {e : PredictError}
    (h : encodeLoop d form (featureLists d) = .error e) :
    predictTop reg scalers db doc key name d form = (.error e, db) := by
  simp only [predictTop, h]

theorem predictTop_unknown_model {reg : Registry} {scalers : Scalers}
    {db : List PatientRecord} {doc : Nat} {key name : String} {d : Disease}
    {form : String → Option String} {feats : List ℚ} {age : Option ℤ}
    {scaled : List ℚ}
    (he : encodeLoop d form (featureLists d) = .ok (feats, age))
    (hs : scalers d feats = some scaled)
    (hk : parseModelKey key = none) :
    predictTop reg scalers db doc key name d form =
      (.error (.unknownModel key), db) := by
  simp only [predictTop, he, hs, hk]

theorem predictTop_inference_error {reg : Registry} {scalers : Scalers}
    {db : List PatientRecord} {doc : Nat} {key name : String} {d : Disease}
    {form : String → Option String} {feats : List ℚ} {age : Option ℤ}
    {scaled : List ℚ} {kind : ModelKind}
    (he : encodeLoop d form (featureLists d) = .ok (feats, age))
    (hs : scalers d feats = some scaled)
    (hk : parseModelKey key = some kind)
    (hr : reg d kind scaled = none) :
    predictTop reg scalers db doc key name d form =
      (.error (.inferenceError d key), db) := by
  simp only [predictTop, he, hs, hk, hr]

/-! ## Concrete scenario material used by the claim witnesses -/

/-- A registry in which every backend answers the discrete positive 1. -/
def regConstOne : Registry := fun _ _ _ => some 1

/-- A registry in which DL answers the probability 3/4 and every discrete
backend answers 1. -/
def regMix : Registry := fun _ k _ =>
  if k = ModelKind.DL then some (mkRat 3 4) else some 1

/-- An identity scaler for every disease. -/
def scalId : Scalers := fun _ v => some v

/-- A form answering "1" for every field (valid for the all-continuous
diabetes and breast-cancer schemas). -/
def formOnes : String → Option String := fun _ => some "1"

/-- A diabetes form with age 30 and every other field 1. -/
def formAge30 : String → Option String := fun f =>
  if f = "Age" then some "30" else some "1"

/-- A diabetes form with age 40 and every other field 1. -/
def formAge40 : String → Option String := fun f =>
  if f = "Age" then some "40" else some "1"

/-- A diabetes form omitting Glucose. -/
def formNoGlucose : String → Option String := fun f =>
  if f = "Glucose" then none else some "1"

/-- A fully valid lung-cancer form whose AGE field reads "45.9". -/
def formLung : String → Option String := fun f =>
  if f = "GENDER" then some "M"
  else if f = "AGE" then some "45.9"
  else some "1"

/-- A fully valid heart-attack form whose age field reads "60.7". -/
def formHeart : String → Option String := fun f =>
  if f = "age" then some "60.7"
  else if f = "sex" then some "male"
  else if f = "cp" then some "typical_angina"
  else if f = "fbs" then some "true"
  else if f = "restecg" then some "normal"
  else if f = "exang" then some "no"
  else if f = "slope" then some "flat"
  else if f = "ca" then some "0"
  else if f = "thal" then some "normal"
  else some "1.5"

theorem mkRat_eight_tenths : mkRat 8 10 = (8 : ℚ) / 10 := by
  norm_num [Rat.mkRat_eq_div]

theorem mkRat_five_tenths : mkRat 5 10 = (5 : ℚ) / 10 := by
  norm_num [Rat.mkRat_eq_div]

/-! ## Claim theorems -/

/-- C3: the risk classifier is the stated step function over scores in
[0,1]: every score ≥ 0.8 maps to High, every score in [0.5, 0.8) maps to
Medium, every score < 0.5 maps to Low, and in particular 0.85 ↦ High,
0.75 ↦ Medium, 0.5 ↦ Medium, 0.49 ↦ Low and 0.0 ↦ Low. -/
theorem classifyRisk_step_function :
    (∀ s : ℚ, ((8 : ℚ) / 10 ≤ s → classifyRisk s = "High Risk") ∧
      ((5 : ℚ) / 10 ≤ s → s < (8 : ℚ) / 10 → classifyRisk s = "Medium Risk") ∧
      (s < (5 : ℚ) / 10 → classifyRisk s = "Low Risk")) ∧
    classifyRisk ((85 : ℚ) / 100) = "High Risk" ∧
    classifyRisk ((75 : ℚ) / 100) = "Medium Risk" ∧
    classifyRisk ((5 : ℚ) / 10) = "Medium Risk" ∧
    classifyRisk ((49 : ℚ) / 100) = "Low Risk" ∧
    classifyRisk 0 = "Low Risk" := by
  have hgen : ∀ s : ℚ, ((8 : ℚ) / 10 ≤ s → classifyRisk s = "High Risk") ∧
      ((5 : ℚ) / 10 ≤ s → s < (8 : ℚ) / 10 → classifyRisk s = "Medium Risk") ∧
      (s < (5 : ℚ) / 10 → classifyRisk s = "Low Risk") := by
    intro s
    unfold classifyRisk
    rw [mkRat_eight_tenths, mkRat_five_tenths]
    refine ⟨fun h => ?_, fun h1 h2 => ?_, fun h => ?_⟩
    · rw [if_pos h]
    · rw [if_neg (by linarith), if_pos h1]
    · rw [if_neg (by linarith), if_neg (by linarith)]
  refine ⟨hgen, ?_, ?_, ?_, ?_, ?_⟩ <;>
    simp [classifyRisk, mkRat_eight_tenths, mkRat_five_tenths] <;> norm_num

/-- Witness for C3 at the concrete score 9/10. -/
theorem classifyRisk_step_function_witness :
    classifyRisk ((9 : ℚ) / 10) = "High Risk" :=
  (classifyRisk_step_function.1 ((9 : ℚ) / 10)).1 (by norm_num)

/-- C2: at most one record exists per identity key (upsert preserves the
invariant), and upserting twice with an identical identity key leaves
exactly one record for that key carrying the second call's vector, score
and tier. -/
theorem upsert_at_most_one_per_key
    (db : List PatientRecord) (doc : Nat) (n : String) (d : Disease)
    (a : Option ℤ) (f1 f2 : List ℚ) (s1 s2 : ℚ) (t1 t2 : String)
    (hdb : countKey db (doc, n, d, a) ≤ 1) :
    (∀ k, countKey db k ≤ 1 → countKey (upsert db doc n d a f1 s1 t1) k ≤ 1) ∧
    countKey (upsert (upsert db doc n d a f1 s1 t1) doc n d a f2 s2 t2)
      (doc, n, d, a) = 1 ∧
    ∀ r ∈ upsert (upsert db doc n d a f1 s1 t1) doc n d a f2 s2 t2,
      keyOf r = (doc, n, d, a) →
        r.features = f2 ∧ r.result = s2 ∧ r.riskLabel = t2 := by
  refine ⟨?_, ?_, ?_⟩
  · intro k hk
    by_cases h : k = (doc, n, d, a)
    · subst h
      rw [countKey_upsert_self]
      omega
    · rw [countKey_upsert_other db doc n d a f1 s1 t1 k h]
      exact hk
  · rw [countKey_upsert_self, countKey_upsert_self]
    omega
  · apply upsert_all_key
    rw [countKey_upsert_self]
    omega

/-- Witness for C2 on the empty store with two heart-attack upserts. -/
theorem upsert_at_most_one_per_key_witness :
    (∀ k, countKey [] k ≤ 1 →
      countKey (upsert [] 1 "Bob" .heartAttack (some 50) [1] 1 "High Risk") k ≤ 1) ∧
    countKey (upsert (upsert [] 1 "Bob" .heartAttack (some 50) [1] 1 "High Risk")
        1 "Bob" .heartAttack (some 50) [0] 0 "Low Risk")
      (1, "Bob", .heartAttack, some 50) = 1 ∧
    ∀ r ∈ upsert (upsert [] 1 "Bob" .heartAttack (some 50) [1] 1 "High Risk")
        1 "Bob" .heartAttack (some 50) [0] 0 "Low Risk",
      keyOf r = (1, "Bob", .heartAttack, some 50) →
        r.features = [0] ∧ r.result = 0 ∧ r.riskLabel = "Low Risk" :=
  upsert_at_most_one_per_key [] 1 "Bob" .heartAttack (some 50)
    [1] [0] 1 0 "High Risk" "Low Risk" (by decide)

/-- C4: a prediction made with one of the six discrete backend kinds
(score in {0.0, 1.0}) derives tier High when the score is 1.0 and Low
when it is 0.0, and never Medium; Medium is reachable only through the
continuous DL backend. -/
theorem discrete_backend_never_medium
    (reg : Registry) (scalers : Scalers) (db : List PatientRecord)
    (doc : Nat) (key name : String) (d : Disease)
    (form : String → Option String) (score : ℚ) (risk : String)
    (db' : List PatientRecord) (kind : ModelKind)
    (hk : parseModelKey key = some kind)
    (hkind : kind ≠ ModelKind.DL)
    (hdisc : ∀ v s, reg d kind v = some s → s = 0 ∨ s = 1)
    (h : predictTop reg scalers db doc key name d form =
      (.ok (score, risk), db')) :
    ((score = 1 ∧ risk = "High Risk") ∨ (score = 0 ∧ risk = "Low Risk")) ∧
      risk ≠ "Medium Risk" := by
  obtain ⟨feats, age, scaled, kind', henc, hscale, hkey, hreg, hrisk, hdb⟩ :=
    predictTop_ok_inv h
  rw [hk] at hkey
  obtain rfl : kind = kind' := Option.some.inj hkey
  rcases hdisc scaled score hreg with h0 | h1
  · refine ⟨Or.inr ⟨h0, ?_⟩, ?_⟩
    · rw [hrisk, h0]; decide
    · rw [hrisk, h0]; decide
  · refine ⟨Or.inl ⟨h1, ?_⟩, ?_⟩
    · rw [hrisk, h1]; decide
    · rw [hrisk, h1]; decide

/-- Witness for C4: a DT prediction on diabetes with a backend answering
1 yields tier High Risk, never Medium. -/
theorem discrete_backend_never_medium_witness :
    (((1 : ℚ) = 1 ∧ "High Risk" = "High Risk") ∨
      ((1 : ℚ) = 0 ∧ "High Risk" = "Low Risk")) ∧
      "High Risk" ≠ "Medium Risk" :=
  discrete_backend_never_medium regConstOne scalId [] 1 "DT" "Alice"
    .diabetes formOnes 1 "High Risk"
    (predictTop regConstOne scalId [] 1 "DT" "Alice" .diabetes formOnes).2
    .DT (by decide) (by decide)
    (fun _ s hs => by
      simp only [regConstOne, Option.some.injEq] at hs
      exact Or.inr hs.symm)
    (by decide)

/-- C8: a prediction request whose backend key is none of the seven
registered kinds fails with `UnknownModelError` — a constructor distinct
from `InferenceError`, which is reserved for exceptions raised by a
registered backend — and no record is written (the store comes back
unchanged). -/
theorem unknown_model_key_distinct_error
    (reg : Registry) (scalers : Scalers) (db : List PatientRecord)
    (doc : Nat) (key name : String) (d : Disease)
    (form : String → Option String) (feats : List ℚ) (age : Option ℤ)
    (scaled : List ℚ)
    (he : encodeLoop d form (featureLists d) = .ok (feats, age))
    (hs : scalers d feats = some scaled)
    (hk : parseModelKey key = none) :
    predictTop reg scalers db doc key name d form =
      (.error (.unknownModel key), db) ∧
    ∀ d' k', PredictError.unknownModel key ≠ .inferenceError d' k' :=
  ⟨predictTop_unknown_model he hs hk, fun _ _ => by simp⟩

/-- Witness for C8 with the unregistered backend key "XGB". -/
theorem unknown_model_key_distinct_error_witness :
    predictTop regConstOne scalId [] 1 "XGB" "Alice" .diabetes formOnes =
      (.error (.unknownModel "XGB"), []) ∧
    ∀ d' k', PredictError.unknownModel "XGB" ≠ .inferenceError d' k' :=
  unknown_model_key_distinct_error regConstOne scalId [] 1 "XGB" "Alice"
    .diabetes formOnes [1, 1, 1, 1, 1, 1, 1, 1] (some 1)
    [1, 1, 1, 1, 1, 1, 1, 1] (by decide) (by decide) (by decide)

/-- C1: when a prediction reaches persistence, the stored score is
exactly the raw value the selected backend returned: a value the backend
emitted, 0.0 or 1.0 whenever the key names a discrete kind whose outputs
are 0/1, and the unmodified probability in [0,1] whenever the key names
the DL kind (no 0.5 thresholding touches the persisted score). -/
theorem persisted_score_is_raw_backend_value
    (reg : Registry) (scalers : Scalers) (db : List PatientRecord)
    (doc : Nat) (key name : String) (d : Disease)
    (form : String → Option String) (score : ℚ) (risk : String)
    (db' : List PatientRecord)
    (hname : name ≠ "")
    (hdisc : ∀ k, k ≠ ModelKind.DL → ∀ v s, reg d k v = some s →
      s = 0 ∨ s = 1)
    (hdl : ∀ v s, reg d ModelKind.DL v = some s → 0 ≤ s ∧ s ≤ 1)
    (h : predictTop reg scalers db doc key name d form =
      (.ok (score, risk), db')) :
    (∃ kind scaled, parseModelKey key = some kind ∧
      reg d kind scaled = some score) ∧
    (∃ r ∈ db', r.doctorId = doc ∧ r.name = name ∧ r.disease = d ∧
      r.result = score ∧ r.riskLabel = classifyRisk score) ∧
    ((∃ kind, parseModelKey key = some kind ∧ kind ≠ ModelKind.DL) →
      score = 0 ∨ score = 1) ∧
    (parseModelKey key = some ModelKind.DL → 0 ≤ score ∧ score ≤ 1) := by
  obtain ⟨feats, age, scaled, kind, henc, hscale, hkey, hreg, hrisk, hdb⟩ :=
    predictTop_ok_inv h
  refine ⟨⟨kind, scaled, hkey, hreg⟩, ?_, ?_, ?_⟩
  · rw [hdb, if_neg hname]
    obtain ⟨r, hr, hkf, hf, hs, ht⟩ :=
      upsert_mem db doc name d age feats score (classifyRisk score)
    have hparts : r.doctorId = doc ∧ r.name = name ∧ r.disease = d ∧
        r.age = age := by
      simpa [keyOf, Prod.ext_iff] using hkf
    exact ⟨r, hr, hparts.1, hparts.2.1, hparts.2.2.1, hs, ht⟩
  · rintro ⟨kind', hk', hkd'⟩
    rw [hkey] at hk'
    obtain rfl : kind = kind' := Option.some.inj hk'
    exact hdisc kind hkd' scaled score hreg
  · intro hdlk
    rw [hkey] at hdlk
    obtain rfl : kind = ModelKind.DL := Option.some.inj hdlk
    exact hdl scaled score hreg

/-- Witness for C1: a DL prediction whose backend emits 3/4 persists the
raw 3/4 (classified Medium Risk), untouched by any 0.5 threshold. -/
theorem persisted_score_is_raw_backend_value_witness :
    (∃ kind scaled, parseModelKey "DL" = some kind ∧
      regMix .diabetes kind scaled = some (mkRat 3 4)) ∧
    (∃ r ∈ (predictTop regMix scalId [] 1 "DL" "Alice" .diabetes formOnes).2,
      r.doctorId = 1 ∧ r.name = "Alice" ∧ r.disease = .diabetes ∧
      r.result = mkRat 3 4 ∧ r.riskLabel = classifyRisk (mkRat 3 4)) ∧
    ((∃ kind, parseModelKey "DL" = some kind ∧ kind ≠ ModelKind.DL) →
      mkRat 3 4 = 0 ∨ mkRat 3 4 = 1) ∧
    (parseModelKey "DL" = some ModelKind.DL →
      0 ≤ mkRat 3 4 ∧ mkRat 3 4 ≤ 1) :=
  persisted_score_is_raw_backend_value regMix scalId [] 1 "DL" "Alice"
    .diabetes formOnes (mkRat 3 4) "Medium Risk"
    (predictTop regMix scalId [] 1 "DL" "Alice" .diabetes formOnes).2
    (by decide)
    (fun k hk _ s hs => by
      simp only [regMix, if_neg hk, Option.some.injEq] at hs
      exact Or.inr hs.symm)
    (fun _ s hs => by
      simp [regMix] at hs
      rw [← hs]
      exact ⟨by decide, by decide⟩)
    (by decide)

/-- C5: for every disease, encoding a raw input in which each schema
feature has a present, non-empty, valid value yields a vector whose
length equals the schema's feature count and whose element at each
position is the encoding of the schema feature name at that same
position, in schema order. -/
theorem encode_length_and_order (d : Disease)
    (form : String → Option String)
    (hvalid : ∀ f ∈ featureLists d, ValidAt d form f) :
    ∃ vs a, encodeLoop d form (featureLists d) = .ok (vs, a) ∧
      vs.length = (featureLists d).length ∧
      ∀ (i : Nat) (f : String), (featureLists d)[i]? = some f →
        ∃ raw v, form f = some raw ∧ raw ≠ "" ∧
          encodeFeature d f raw = .ok v ∧ vs[i]? = some v :=
  encodeLoop_total d form (featureLists d) hvalid

/-- Witness for C5 on the diabetes schema with every field "1". -/
theorem encode_length_and_order_witness :
    ∃ vs a, encodeLoop .diabetes formOnes (featureLists .diabetes) =
        .ok (vs, a) ∧
      vs.length = (featureLists .diabetes).length ∧
      ∀ (i : Nat) (f : String), (featureLists .diabetes)[i]? = some f →
        ∃ raw v, formOnes f = some raw ∧ raw ≠ "" ∧
          encodeFeature .diabetes f raw = .ok v ∧ vs[i]? = some v :=
  encode_length_and_order .diabetes formOnes
    (by
      intro f hf
      fin_cases hf <;> exact ⟨"1", 1, by decide, by decide, by decide⟩)

/-- C6: a prediction request in which some schema feature is absent or
empty — every other feature being valid — fails with a
`MissingFeatureError` naming that feature, and the record store comes
back unchanged: no scaling, inference or persistence happens. -/
theorem missing_feature_rejected_no_write
    (reg : Registry) (scalers : Scalers) (db : List PatientRecord)
    (doc : Nat) (key name : String) (d : Disease)
    (form : String → Option String) (f : String)
    (hf : f ∈ featureLists d)
    (hmiss : form f = none ∨ form f = some "")
    (hothers : ∀ g ∈ featureLists d, g ≠ f → ValidAt d form g) :
    predictTop reg scalers db doc key name d form =
      (.error (.missingFeature f), db) :=
  predictTop_encode_error
    (encodeLoop_missing d form f (featureLists d) hf hmiss hothers)

/-- Witness for C6: omitting Glucose from a diabetes request is rejected
naming Glucose and leaves the empty store empty. -/
theorem missing_feature_rejected_no_write_witness :
    predictTop regConstOne scalId [] 1 "DT" "Alice" .diabetes
        formNoGlucose =
      (.error (.missingFeature "Glucose"), []) :=
  missing_feature_rejected_no_write regConstOne scalId [] 1 "DT" "Alice"
    .diabetes formNoGlucose "Glucose" (by decide) (Or.inl (by decide))
    (by
      intro g hg hne
      fin_cases hg <;>
        first
          | exact absurd rfl hne
          | exact ⟨"1", 1, by decide, by decide, by decide⟩)

/-- C7: two prediction calls with the same doctor, patient name and
disease but different ages create two distinct patient records: after
both calls each of the two identity keys owns exactly one record and the
store grew by two. -/
theorem different_ages_two_records
    (reg : Registry) (scalers : Scalers) (db : List PatientRecord)
    (doc : Nat) (key name : String) (d : Disease)
    (form1 form2 : String → Option String) (out1 out2 : ℚ × String)
    (db1 db2 : List PatientRecord) (f1 f2 : List ℚ) (a1 a2 : Option ℤ)
    (hname : name ≠ "")
    (he1 : encodeLoop d form1 (featureLists d) = .ok (f1, a1))
    (he2 : encodeLoop d form2 (featureLists d) = .ok (f2, a2))
    (hne : a1 ≠ a2)
    (hk1 : countKey db (doc, name, d, a1) = 0)
    (hk2 : countKey db (doc, name, d, a2) = 0)
    (h1 : predictTop reg scalers db doc key name d form1 = (.ok out1, db1))
    (h2 : predictTop reg scalers db1 doc key name d form2 = (.ok out2, db2)) :
    countKey db2 (doc, name, d, a1) = 1 ∧
    countKey db2 (doc, name, d, a2) = 1 ∧
    db2.length = db.length + 2 := by
  obtain ⟨s1, r1⟩ := out1
  obtain ⟨s2, r2⟩ := out2
  obtain ⟨ft1, ag1, sc1, k1, henc1, _, _, _, _, hdb1⟩ := predictTop_ok_inv h1
  rw [he1] at henc1
  obtain ⟨rfl, rfl⟩ := Prod.mk.inj (Except.ok.inj henc1)
  obtain ⟨ft2, ag2, sc2, k2, henc2, _, _, _, _, hdb2⟩ := predictTop_ok_inv h2
  rw [he2] at henc2
  obtain ⟨rfl, rfl⟩ := Prod.mk.inj (Except.ok.inj henc2)
  rw [if_neg hname] at hdb1 hdb2
  have hkne : ((doc, name, d, a1) : Nat × String × Disease × Option ℤ) ≠
      (doc, name, d, a2) := by
    simpa [Prod.ext_iff] using hne
  have c11 : countKey db1 (doc, name, d, a1) = 1 := by
    rw [hdb1, countKey_upsert_self, hk1]
    decide
  have c12 : countKey db1 (doc, name, d, a2) = 0 := by
    rw [hdb1, countKey_upsert_other db doc name d a1 f1 s1
      (classifyRisk s1) _ hkne.symm]
    exact hk2
  have hl1 : db1.length = db.length + 1 := by
    rw [hdb1]
    exact length_upsert_notfound db doc name d a1 f1 s1
      (classifyRisk s1) hk1
  refine ⟨?_, ?_, ?_⟩
  · rw [hdb2, countKey_upsert_other db1 doc name d a2 f2 s2
      (classifyRisk s2) _ hkne]
    exact c11
  · rw [hdb2, countKey_upsert_self, c12]
    decide
  · rw [hdb2, length_upsert_notfound db1 doc name d a2 f2 s2
      (classifyRisk s2) c12, hl1]

/-- Witness for C7: diabetes predictions for Alice at ages 30 and 40
leave two records in an initially empty store. -/
theorem different_ages_two_records_witness :
    countKey (predictTop regConstOne scalId
        (predictTop regConstOne scalId [] 1 "DT" "Alice" .diabetes
          formAge30).2
        1 "DT" "Alice" .diabetes formAge40).2
      (1, "Alice", .diabetes, some 30) = 1 ∧
    countKey (predictTop regConstOne scalId
        (predictTop regConstOne scalId [] 1 "DT" "Alice" .diabetes
          formAge30).2
        1 "DT" "Alice" .diabetes formAge40).2
      (1, "Alice", .diabetes, some 40) = 1 ∧
    (predictTop regConstOne scalId
        (predictTop regConstOne scalId [] 1 "DT" "Alice" .diabetes
          formAge30).2
        1 "DT" "Alice" .diabetes formAge40).2.length =
      List.length ([] : List PatientRecord) + 2 :=
  different_ages_two_records regConstOne scalId [] 1 "DT" "Alice"
    .diabetes formAge30 formAge40 (1, "High Risk") (1, "High Risk")
    (predictTop regConstOne scalId [] 1 "DT" "Alice" .diabetes
      formAge30).2
    (predictTop regConstOne scalId
      (predictTop regConstOne scalId [] 1 "DT" "Alice" .diabetes
        formAge30).2
      1 "DT" "Alice" .diabetes formAge40).2
    [1, 1, 1, 1, 1, 1, 1, 30] [1, 1, 1, 1, 1, 1, 1, 40]
    (some 30) (some 40)
    (by decide) (by decide) (by decide) (by decide) (by decide)
    (by decide) (by decide) (by decide)

/-- C9: the breast-cancer schema has no feature whose lowercase name is
"age", so every successful encoding for it carries age `none`; hence all
named predictions for one (doctor, name, breast-cancer) share the single
identity key with age `none` and repeatedly overwrite one record: after
two successful predictions the store still holds exactly one record for
that key and grew by exactly one. -/
theorem breast_cancer_age_none_single_record
    (reg : Registry) (scalers : Scalers) (db : List PatientRecord)
    (doc : Nat) (key1 key2 name : String)
    (form1 form2 : String → Option String) (out1 out2 : ℚ × String)
    (db1 db2 : List PatientRecord)
    (hname : name ≠ "")
    (h0 : countKey db (doc, name, Disease.breastCancer, none) = 0)
    (h1 : predictTop reg scalers db doc key1 name .breastCancer form1 =
      (.ok out1, db1))
    (h2 : predictTop reg scalers db1 doc key2 name .breastCancer form2 =
      (.ok out2, db2)) :
    (∀ (form : String → Option String) (vs : List ℚ) (a : Option ℤ),
      encodeLoop .breastCancer form (featureLists .breastCancer) =
        .ok (vs, a) → a = none) ∧
    countKey db1 (doc, name, Disease.breastCancer, none) = 1 ∧
    countKey db2 (doc, name, Disease.breastCancer, none) = 1 ∧
    db1.length = db.length + 1 ∧ db2.length = db.length + 1 := by
  have hnoage : ∀ f ∈ featureLists Disease.breastCancer,
      ¬(lowerStr f = "age" ∨ lowerStr f = "AGE") := by decide
  have hpart1 : ∀ (form : String → Option String) (vs : List ℚ)
      (a : Option ℤ),
      encodeLoop .breastCancer form (featureLists .breastCancer) =
        .ok (vs, a) → a = none :=
    fun form vs a h =>
      encodeLoop_age_none .breastCancer form (featureLists .breastCancer)
        vs a hnoage h
  obtain ⟨s1, r1⟩ := out1
  obtain ⟨s2, r2⟩ := out2
  obtain ⟨ft1, ag1, sc1, k1, henc1, _, _, _, _, hdb1⟩ := predictTop_ok_inv h1
  obtain rfl : ag1 = none := hpart1 form1 ft1 ag1 henc1
  obtain ⟨ft2, ag2, sc2, k2, henc2, _, _, _, _, hdb2⟩ := predictTop_ok_inv h2
  obtain rfl : ag2 = none := hpart1 form2 ft2 ag2 henc2
  rw [if_neg hname] at hdb1 hdb2
  have c1 : countKey db1 (doc, name, Disease.breastCancer, none) = 1 := by
    rw [hdb1, countKey_upsert_self, h0]
    decide
  have hl1 : db1.length = db.length + 1 := by
    rw [hdb1]
    exact length_upsert_notfound db doc name .breastCancer none ft1 s1
      (classifyRisk s1) h0
  refine ⟨hpart1, c1, ?_, hl1, ?_⟩
  · rw [hdb2, countKey_upsert_self, c1]
    decide
  · rw [hdb2, length_upsert_found db1 doc name .breastCancer none ft2 s2
      (classifyRisk s2) (by rw [c1]; omega), hl1]

/-- Witness for C9: two breast-cancer predictions for Alice on an empty
store leave a single ageless record. -/
theorem breast_cancer_age_none_single_record_witness :
    (∀ (form : String → Option String) (vs : List ℚ) (a : Option ℤ),
      encodeLoop .breastCancer form (featureLists .breastCancer) =
        .ok (vs, a) → a = none) ∧
    countKey (predictTop regConstOne scalId [] 1 "DT" "Alice"
        .breastCancer formOnes).2
      (1, "Alice", Disease.breastCancer, none) = 1 ∧
    countKey (predictTop regConstOne scalId
        (predictTop regConstOne scalId [] 1 "DT" "Alice" .breastCancer
          formOnes).2
        1 "RF" "Alice" .breastCancer formOnes).2
      (1, "Alice", Disease.breastCancer, none) = 1 ∧
    (predictTop regConstOne scalId [] 1 "DT" "Alice" .breastCancer
      formOnes).2.length = List.length ([] : List PatientRecord) + 1 ∧
    (predictTop regConstOne scalId
      (predictTop regConstOne scalId [] 1 "DT" "Alice" .breastCancer
        formOnes).2
      1 "RF" "Alice" .breastCancer formOnes).2.length =
      List.length ([] : List PatientRecord) + 1 :=
  breast_cancer_age_none_single_record regConstOne scalId [] 1 "DT" "RF"
    "Alice" formOnes formOnes (1, "High Risk") (1, "High Risk")
    (predictTop regConstOne scalId [] 1 "DT" "Alice" .breastCancer
      formOnes).2
    (predictTop regConstOne scalId
      (predictTop regConstOne scalId [] 1 "DT" "Alice" .breastCancer
        formOnes).2
      1 "RF" "Alice" .breastCancer formOnes).2
    (by decide) (by decide) (by decide) (by decide)

/-- C10: a successful prediction for a disease whose schema contains a
continuous feature named "age" case-insensitively persists, inside the
identity key of the stored record,
the numeric parse of the raw age value truncated toward zero to an
integer — not the raw string nor the exact real value.  Covers every
disease whose schema has a continuous feature lowercasing to "age":
heart-attack "age", diabetes "Age" and lung-cancer "AGE" all satisfy the
hypotheses, as the three-disease witness shows. -/
theorem age_truncated_persisted
    (reg : Registry) (scalers : Scalers) (db : List PatientRecord)
    (doc : Nat) (key name : String) (d : Disease)
    (form : String → Option String) (f : String)
    (out : ℚ × String) (db' : List PatientRecord) (raw : String) (q : ℚ)
    (hname : name ≠ "")
    (hf : f ∈ featureLists d)
    (hage : lowerStr f = "age" ∨ lowerStr f = "AGE")
    (hunique : ∀ g ∈ featureLists d, g ≠ f →
      ¬(lowerStr g = "age" ∨ lowerStr g = "AGE"))
    (hcont : labelToNumeric d f = none)
    (hraw : form f = some raw)
    (hq : parseDecimal raw = some q)
    (h : predictTop reg scalers db doc key name d form = (.ok out, db')) :
    ∃ r ∈ db', keyOf r = (doc, name, d, some (truncRat q)) := by
  obtain ⟨s, rk⟩ := out
  obtain ⟨feats, age, scaled, kind, henc, _, _, _, _, hdb⟩ :=
    predictTop_ok_inv h
  have henc2 : encodeFeature d f raw = .ok q := by
    simp only [encodeFeature, hcont, hq]
  have hage' : age = some (truncRat q) :=
    encodeLoop_age_unique d form f raw q hage hraw henc2
      (featureLists d) feats age hf hunique henc
  rw [hdb, if_neg hname]
  obtain ⟨r, hr, hkf, _, _, _⟩ :=
    upsert_mem db doc name d age feats s (classifyRisk s)
  exact ⟨r, hr, by rw [hkf, hage']⟩

/-- Witness for C10 at all three qualifying diseases: heart-attack raw
age "60.7" persists under truncated age 60, diabetes raw Age "30" under
30, lung-cancer raw AGE "45.9" under truncated age 45. -/
theorem age_truncated_persisted_witness :
    ((∃ r ∈ (predictTop regConstOne scalId [] 1 "DT" "Alice" .heartAttack
        formHeart).2,
      keyOf r = (1, "Alice", Disease.heartAttack,
        some (truncRat (mkRat 607 10)))) ∧
      truncRat (mkRat 607 10) = 60) ∧
    ((∃ r ∈ (predictTop regConstOne scalId [] 1 "DT" "Bob" .diabetes
        formAge30).2,
      keyOf r = (1, "Bob", Disease.diabetes,
        some (truncRat (mkRat 30 1)))) ∧
      truncRat (mkRat 30 1) = 30) ∧
    ((∃ r ∈ (predictTop regConstOne scalId [] 1 "DT" "Carol" .lungCancer
        formLung).2,
      keyOf r = (1, "Carol", Disease.lungCancer,
        some (truncRat (mkRat 459 10)))) ∧
      truncRat (mkRat 459 10) = 45) :=
  ⟨⟨age_truncated_persisted regConstOne scalId [] 1 "DT" "Alice"
      .heartAttack formHeart "age" (1, "High Risk")
      (predictTop regConstOne scalId [] 1 "DT" "Alice" .heartAttack
        formHeart).2
      "60.7" (mkRat 607 10) (by decide) (by decide) (by decide)
      (by decide) (by decide) (by decide) (by decide) (by decide),
    by decide⟩,
   ⟨age_truncated_persisted regConstOne scalId [] 1 "DT" "Bob"
      .diabetes formAge30 "Age" (1, "High Risk")
      (predictTop regConstOne scalId [] 1 "DT" "Bob" .diabetes
        formAge30).2
      "30" (mkRat 30 1) (by decide) (by decide) (by decide)
      (by decide) (by decide) (by decide) (by decide) (by decide),
    by decide⟩,
   ⟨age_truncated_persisted regConstOne scalId [] 1 "DT" "Carol"
      .lungCancer formLung "AGE" (1, "High Risk")
      (predictTop regConstOne scalId [] 1 "DT" "Carol" .lungCancer
        formLung).2
      "45.9" (mkRat 459 10) (by decide) (by decide) (by decide)
      (by decide) (by decide) (by decide) (by decide) (by decide),
    by decide⟩⟩

end DiseasePrediction
